import Mathlib

/-! Shallow embedding of the delta-dotnet Rust bridge
(src/DeltaLake/Bridge/src/lib.rs and src/DeltaLake/Bridge/src/table.rs).
Asynchronous FFI entry points are modelled as pure functions from their
inputs and from the behavior of the external table engine (a function
parameter) to a trace: the callback invocations made on the calling
thread, the work units submitted to the scheduler, and panic flags.
Machine integers are Nat/Int with explicit wrap-around where it matters. -/

namespace Bridge

/-- Snapshot state of an engine table (deltalake DeltaTableState). The engine
is out of scope; its state is modelled as an opaque tag. -/
abbrev TableState := Nat

/-- The engine table object as seen by the bridge (deltalake::DeltaTable):
the bridge reads and writes only its `state` field (table.rs vacuum). -/
structure DeltaTable where
  state : Option TableState
deriving DecidableEq

/-- RawDeltaTable wraps the engine table (table.rs lines 13-15, 461-465). -/
structure RawDeltaTable where
  table : DeltaTable
deriving DecidableEq

/-- Native error of the external engine (deltalake::DeltaTableError).
The bridge itself constructs only the NoMetadata variant (table.rs line 392);
all other native failures are collapsed into an opaque kind plus message. -/
inductive EngineError where
  | noMetadata
  | native (kind : Nat) (msg : String)
deriving DecidableEq

/-- Display of an engine error, standing for err.to_string() in table.rs. -/
def EngineError.toMessage : EngineError → String
  | .noMetadata => "No metadata"
  | .native _ msg => msg

/-- Modelled from the spec: error.rs is not among the sampled sources, only
its use sites are. Per spec section 7 the bridge error taxonomy is the closed
set: text-decoding failure, protocol violation, missing-metadata, not-found,
storage I-O failure, not-implemented, cancelled. The Utf8 and Protocol
variants are used directly in table.rs. -/
inductive DeltaTableErrorCode where
  | utf8
  | protocol
  | noMetadata
  | notFound
  | storage
  | notImplemented
  | cancelled
deriving DecidableEq

/-- Modelled from the spec: error.rs is not among the sampled sources. Per
spec sections 4.2 and 7, a bridge error carries one error category from the
closed taxonomy plus a free-form message. -/
structure DeltaTableError where
  code : DeltaTableErrorCode
  message : String
deriving DecidableEq

/-- Modelled from the spec: DeltaTableError::from_error lives in the absent
error.rs. Per spec section 7 the native engine error is always translated
into the bridge taxonomy, and the missing-metadata category exists precisely
for the no-snapshot-state precondition failure; the translation of other
native kinds is unknown and is taken as an arbitrary function fromNative. -/
def DeltaTableError.fromError (fromNative : Nat → String → DeltaTableErrorCode) :
    EngineError → DeltaTableError
  | .noMetadata => ⟨.noMetadata, EngineError.toMessage .noMetadata⟩
  | .native k msg => ⟨fromNative k msg, msg⟩

/-- Continuation byte test for UTF-8 validation (0x80..=0xBF). -/
def isCont (b : UInt8) : Bool := 0x80 ≤ b && b ≤ 0xBF

/-- Validity of a byte sequence as UTF-8, mirroring the check performed by
std::str::from_utf8 in table_new (table.rs line 83). -/
def utf8Valid : List UInt8 → Bool
  | [] => true
  | b :: rest =>
      if b ≤ 0x7F then utf8Valid rest
      else if b < 0xC2 then false
      else if b ≤ 0xDF then
        match rest with
        | c1 :: rest2 => isCont c1 && utf8Valid rest2
        | [] => false
      else if b ≤ 0xEF then
        match rest with
        | c1 :: c2 :: rest3 =>
            (if b = 0xE0 then 0xA0 ≤ c1 && c1 ≤ 0xBF
             else if b = 0xED then 0x80 ≤ c1 && c1 ≤ 0x9F
             else isCont c1) && isCont c2 && utf8Valid rest3
        | _ => false
      else if b ≤ 0xF4 then
        match rest with
        | c1 :: c2 :: c3 :: rest4 =>
            (if b = 0xF0 then 0x90 ≤ c1 && c1 ≤ 0xBF
             else if b = 0xF4 then 0x80 ≤ c1 && c1 ≤ 0x8F
             else isCont c1) && isCont c2 && isCont c3 && utf8Valid rest4
        | _ => false
      else false

/-- UTF-8 encoding of one scalar value (Rust String::into_bytes encoding). -/
def encodeChar (c : Char) : List UInt8 :=
  let n := c.toNat
  if n < 0x80 then [UInt8.ofNat n]
  else if n < 0x800 then
    [UInt8.ofNat (0xC0 ||| (n >>> 6)), UInt8.ofNat (0x80 ||| (n &&& 0x3F))]
  else if n < 0x10000 then
    [UInt8.ofNat (0xE0 ||| (n >>> 12)), UInt8.ofNat (0x80 ||| ((n >>> 6) &&& 0x3F)),
     UInt8.ofNat (0x80 ||| (n &&& 0x3F))]
  else
    [UInt8.ofNat (0xF0 ||| (n >>> 18)), UInt8.ofNat (0x80 ||| ((n >>> 12) &&& 0x3F)),
     UInt8.ofNat (0x80 ||| ((n >>> 6) &&& 0x3F)), UInt8.ofNat (0x80 ||| (n &&& 0x3F))]

/-- UTF-8 bytes of a string. -/
def utf8Bytes (s : String) : List UInt8 := s.data.flatMap encodeChar

/-- Owned byte buffer of the bridge (lib.rs ByteArray); the internal
capacity and disable_free bookkeeping fields carry no observable content. -/
structure ByteArray where
  data : List UInt8
deriving DecidableEq

/-- ByteArray::from_utf8 (lib.rs lines 195-197): the bytes of the string. -/
def ByteArray.from_utf8 (s : String) : ByteArray := ⟨utf8Bytes s⟩

/-- Dynamic array of owned byte buffers (lib.rs DynamicArray). -/
structure DynamicArray where
  data : List ByteArray
deriving DecidableEq

/-- DynamicArray::from_vec_string (lib.rs lines 170-183). -/
def DynamicArray.from_vec_string (input : List String) : DynamicArray :=
  ⟨input.map (fun path => ByteArray.from_utf8 path)⟩

/-- Insertion into an association list with at most one binding per key,
modelling HashMap::insert (replaces any existing binding for the key; a
HashMap is unordered, so only the binding set is meaningful). -/
def assocInsert {α β : Type} [DecidableEq α] (m : List (α × β)) (k : α) (v : β) :
    List (α × β) :=
  (m.filter (fun p => p.1 ≠ k)) ++ [(k, v)]

/-- Lookup in an association list (HashMap::get observation). -/
def assocLookup {α β : Type} [DecidableEq α] (m : List (α × β)) (k : α) : Option β :=
  (m.find? (fun p => p.1 = k)).map Prod.snd

/-- String-keyed map of the bridge (lib.rs Map); disable_free omitted as it
carries no observable content. -/
structure Map where
  data : List (String × String)
deriving DecidableEq

/-- Modelled from the spec: map_new delegates to Runtime::allocate_map in the
absent runtime.rs; per spec sections 4.3 and 4.4 the runtime allocates a
fresh map, constructed incrementally afterwards via map_add, so a new map is
empty. The capacity is a size hint with no observable content. -/
def map_new (_capacity : Nat) : Map := ⟨[]⟩

/-- map_add (lib.rs lines 44-58): a null map pointer returns false and leaves
nothing changed; otherwise the key and value strings (trusted UTF-8, lib.rs
to_string) are inserted and true is returned. -/
def map_add : Option Map → String → String → Option Map × Bool
  | none, _, _ => (none, false)
  | some m, key, value => (some ⟨assocInsert m.data key value⟩, true)

/-- Folding repeated map_add calls over a list of key-value pairs. -/
def mapAddAll (pairs : List (String × String)) (m : Option Map) : Option Map :=
  pairs.foldl (fun acc p => (map_add acc p.1 p.2).1) m

/-- Split of decoded text at each newline character, mirroring Rust
str::split with separator newline (keeps empty segments, yields one segment
even for empty input). -/
def splitNl : List Char → List (List Char)
  | [] => [[]]
  | c :: rest =>
      if c = '\n' then [] :: splitNl rest
      else
        match splitNl rest with
        | [] => [[c]]
        | g :: gs => (c :: g) :: gs

/-- Adjacent pairing, mirroring slice chunks_exact(2) (a trailing odd
element is dropped). -/
def chunkPairs {α : Type} : List α → List (α × α)
  | a :: b :: rest => (a, b) :: chunkPairs rest
  | _ => []

/-- ByteArrayRef::to_string_map_on_newlines (lib.rs lines 140-152): split the
trusted-UTF-8 text at newlines, pair up adjacent segments, and collect the
pairs into a HashMap (a later pair with the same key replaces an earlier
one); the re-collection from borrowed to owned strings preserves the
entries. -/
def to_string_map_on_newlines (content : List Char) : List (String × String) :=
  ((chunkPairs (splitNl content)).map (fun p => (String.mk p.1, String.mk p.2))).foldl
    (fun m p => assocInsert m p.1 p.2) []

/-- Interleaving of keys and values into the alternating line layout. -/
def interleave {α : Type} : List α → List α → List α
  | k :: ks, v :: vs => k :: v :: interleave ks vs
  | _, _ => []

/-- Metadata text block of the form k1 newline v1 newline ... kn newline vn
(lib.rs lines 155-157). -/
def newlineBlock : List (List Char) → List Char
  | [] => []
  | [p] => p
  | p :: rest => p ++ '\n' :: newlineBlock rest

/-- Work unit submitted to the scheduler: the callback invocations it issues
when it runs, and whether it ends in a panic (a panicking tokio task is
dropped by the runtime without aborting the process). -/
structure Task (β : Type) where
  invocations : List β
  panicked : Bool
deriving DecidableEq

/-- Observable behavior of one FFI entry point: callback invocations made
synchronously on the calling thread, work units submitted to the scheduler,
and whether the entry point itself panicked across the C ABI (which aborts
the host process). -/
structure Trace (β : Type) where
  immediate : List β
  spawned : List (Task β)
  aborted : Bool
deriving DecidableEq

/-- Every callback invocation an entry point eventually causes: those on the
calling thread followed by those of each scheduled work unit. -/
def Trace.allInvocations {β : Type} (t : Trace β) : List β :=
  t.immediate ++ (t.spawned.map Task.invocations).flatten

/-- TableOptions (table.rs lines 17-23): version is i64, storage_options a
nullable map pointer, log_buffer_size a size_t. -/
structure TableOptions where
  version : Int
  storage_options : Option Map
  without_files : Bool
  log_buffer_size : Nat
deriving DecidableEq

/-- Configuration accumulated on the engine table loader
(deltalake::DeltaTableBuilder) by table_new; absent fields mean the engine
defaults apply. -/
structure DeltaTableBuilder where
  uri : List UInt8
  version : Option Int
  storage_options : Option (List (String × String))
  without_files : Bool
  log_buffer_size : Option Nat
deriving DecidableEq

/-- DeltaTableBuilder::from_uri: a fresh loader with engine defaults. -/
def DeltaTableBuilder.from_uri (u : List UInt8) : DeltaTableBuilder :=
  ⟨u, none, none, false, none⟩

/-- Loader configuration performed by table_new (table.rs lines 99-119):
version only when positive, storage options only when non-null, the
without-files flag, and log buffer size only when positive (the unwrap on
with_log_buffer_size cannot fail for a positive size). -/
def buildLoader (uri : List UInt8) (options : TableOptions) : DeltaTableBuilder :=
  let b := DeltaTableBuilder.from_uri uri
  let b := if options.version > 0 then { b with version := some options.version } else b
  let b :=
    match options.storage_options with
    | some m => { b with storage_options := some m.data }
    | none => b
  let b := if options.without_files then { b with without_files := true } else b
  if options.log_buffer_size > 0 then
    { b with log_buffer_size := some options.log_buffer_size }
  else b

/-- Message text of the std::str::from_utf8 error; its content is opaque to
every property of interest. -/
def utf8ErrorMessage (_bytes : List UInt8) : String := "invalid utf-8 sequence"

/-- Callback argument pair of TableNewCallback: the nullable success handle
and the nullable error pointer. -/
abbrev TableNewCb := Option RawDeltaTable × Option DeltaTableError

/-- Invocation argument table_new passes for a completed engine load
(table.rs lines 126-141). -/
def loadResultInvocation (fromNative : Nat → String → DeltaTableErrorCode) :
    Except EngineError DeltaTable → TableNewCb
  | .ok t => (some ⟨t⟩, none)
  | .error e => (none, some (DeltaTableError.fromError fromNative e))

/-- table_new (table.rs lines 73-143): on invalid UTF-8 in the location
bytes the callback is invoked on the calling thread with a null handle and a
Utf8-category error and nothing is spawned; otherwise the configured load is
submitted to the scheduler and the spawned work invokes the callback once
with the load outcome. -/
def table_new (fromNative : Nat → String → DeltaTableErrorCode)
    (engineLoad : DeltaTableBuilder → Except EngineError DeltaTable)
    (uri : List UInt8) (options : TableOptions) : Trace TableNewCb :=
  if utf8Valid uri then
    { immediate := [],
      spawned := [⟨[loadResultInvocation fromNative (engineLoad (buildLoader uri options))],
        false⟩],
      aborted := false }
  else
    { immediate := [(none, some ⟨.utf8, utf8ErrorMessage uri⟩)],
      spawned := [], aborted := false }

/-- table_update_incremental (table.rs lines 197-214): one work unit is
spawned via do_with_table_and_runtime; it invokes the empty callback once
with null on success or the translated engine error on failure. -/
def table_update_incremental (fromNative : Nat → String → DeltaTableErrorCode)
    (engineUpdate : DeltaTable → Except EngineError Unit)
    (table : DeltaTable) : Trace (Option DeltaTableError) :=
  { immediate := [],
    spawned := [⟨[match engineUpdate table with
      | .ok _ => none
      | .error e => some (DeltaTableError.fromError fromNative e)], false⟩],
    aborted := false }

/-- table_load_version (table.rs lines 216-232): same shape as
table_update_incremental with the requested version forwarded. -/
def table_load_version (fromNative : Nat → String → DeltaTableErrorCode)
    (engineLoadVersion : DeltaTable → Int → Except EngineError Unit)
    (table : DeltaTable) (version : Int) : Trace (Option DeltaTableError) :=
  { immediate := [],
    spawned := [⟨[match engineLoadVersion table version with
      | .ok _ => none
      | .error e => some (DeltaTableError.fromError fromNative e)], false⟩],
    aborted := false }

/-- table_checkpoint (table.rs lines 313-331): one spawned work unit; on
engine failure the delivered error is built directly with the Protocol
category and the engine error display text. -/
def table_checkpoint (engineCheckpoint : DeltaTable → Except EngineError Unit)
    (table : DeltaTable) : Trace (Option DeltaTableError) :=
  { immediate := [],
    spawned := [⟨[match engineCheckpoint table with
      | .ok _ => none
      | .error e => some ⟨.protocol, e.toMessage⟩], false⟩],
    aborted := false }

/-- Largest h with chrono Duration::hours h in bounds: the duration type is
capped at i64 maximal milliseconds, so at 9223372036854775 whole seconds,
hence at 9223372036854775 / 3600 = 2562047788015 whole hours. -/
def timeDeltaMaxHours : Nat := 2562047788015

/-- chrono Duration::hours as whole seconds; none models the panic raised
when the requested duration is out of bounds. -/
def timeDeltaHours (h : Int) : Option Int :=
  if h.natAbs ≤ timeDeltaMaxHours then some (h * 3600) else none

/-- Wrap-around u64 to i64 cast (Rust as-cast) for n < 2 ^ 64. -/
def u64ToI64 (n : Nat) : Int :=
  if n < 2 ^ 63 then (n : Int) else (n : Int) - 2 ^ 64

/-- Collection of string pairs into a serde_json object map (vacuum, table.rs
lines 403-407): each value converts to a JSON string and a later binding for
a key replaces an earlier one. -/
def jsonMapOf (md : List (String × String)) : List (String × String) :=
  md.foldl (fun m p => assocInsert m p.1 p.2) []

/-- VacuumOptions (table.rs lines 43-49): retention_hours is u64,
custom_metadata a nullable map pointer. -/
structure VacuumOptions where
  dry_run : Bool
  retention_hours : Nat
  enforce_retention_duration : Bool
  custom_metadata : Option Map
deriving DecidableEq

/-- Configuration handed to the engine VacuumBuilder (table.rs lines
395-407): the cloned snapshot state, the two flags, an optional retention
duration in seconds (absent means the engine default policy), and optional
JSON metadata. -/
structure VacuumCmd where
  state : TableState
  enforce_retention_duration : Bool
  dry_run : Bool
  retention_period_secs : Option Int
  metadata : Option (List (String × String))
deriving DecidableEq

/-- Construction of the VacuumBuilder configuration (table.rs lines
395-407); none models the panic of Duration::hours on an out-of-bounds
retention value. -/
def buildVacuumCmd (st : TableState) (dry_run : Bool) (retention_hours : Option Nat)
    (enforce : Bool) (custom_metadata : Option (List (String × String))) :
    Option VacuumCmd :=
  let cmd : VacuumCmd := ⟨st, enforce, dry_run, none, none⟩
  let withRet : Option VacuumCmd :=
    match retention_hours with
    | none => some cmd
    | some h =>
        (timeDeltaHours (u64ToI64 h)).map
          (fun secs => { cmd with retention_period_secs := some secs })
  withRet.map (fun c =>
    match custom_metadata with
    | none => c
    | some md => { c with metadata := some (jsonMapOf md) })

/-- Engine behavior for one vacuum execution: from the built configuration
to either a native error or the post-vacuum table state (result.state)
together with the deleted file names (metrics.files_deleted). -/
abbrev VacuumEngine := VacuumCmd → Except EngineError (Option TableState × List String)

/-- Helper vacuum (table.rs lines 384-412): fail with the native NoMetadata
error when no snapshot state is loaded, otherwise build the configuration,
run the engine, and on success replace the table state with the post-vacuum
state and return the deleted file names. The outer none models the
Duration::hours panic; it is only reachable with a loaded state because the
state check comes first. -/
def vacuum (engineVacuum : VacuumEngine) (table : DeltaTable) (dry_run : Bool)
    (retention_hours : Option Nat) (enforce : Bool)
    (custom_metadata : Option (List (String × String))) :
    Option (Except EngineError (DeltaTable × List String)) :=
  match table.state with
  | none => some (Except.error EngineError.noMetadata)
  | some st =>
      (buildVacuumCmd st dry_run retention_hours enforce custom_metadata).map (fun cmd =>
        match engineVacuum cmd with
        | .ok (resultState, filesDeleted) => .ok ({ table with state := resultState }, filesDeleted)
        | .error e => .error e)

/-- Callback argument pair of the vacuum GenericErrorCallback: the nullable
dynamic array of deleted file names and the nullable error pointer. -/
abbrev VacuumCb := Option DynamicArray × Option DeltaTableError

/-- Observable outcome of table_vacuum: the trace, the table the handle
holds after the spawned work unit has run, and the configuration that
reached the engine VacuumBuilder (none when the state check failed first or
the retention conversion panicked). -/
structure VacuumOutcome where
  trace : Trace VacuumCb
  finalTable : DeltaTable
  cmdSent : Option VacuumCmd
deriving DecidableEq

/-- table_vacuum (table.rs lines 333-382): the options are read on the
calling thread (zero retention hours means no retention period, a null
metadata pointer means none), then one work unit is spawned which runs the
helper vacuum and invokes the callback once with either the deleted-name
dynamic array or the translated error; a Duration::hours panic kills the
spawned task before any callback invocation. -/
def table_vacuum (fromNative : Nat → String → DeltaTableErrorCode)
    (engineVacuum : VacuumEngine) (table : DeltaTable) (options : VacuumOptions) :
    VacuumOutcome :=
  let retention_hours :=
    if options.retention_hours > 0 then some options.retention_hours else none
  let custom_metadata := options.custom_metadata.map Map.data
  let cmdSent :=
    match table.state with
    | none => none
    | some st =>
        buildVacuumCmd st options.dry_run retention_hours
          options.enforce_retention_duration custom_metadata
  match vacuum engineVacuum table options.dry_run retention_hours
      options.enforce_retention_duration custom_metadata with
  | none =>
      ⟨{ immediate := [], spawned := [⟨[], true⟩], aborted := false }, table, none⟩
  | some (.ok (newTable, files)) =>
      ⟨{ immediate := [],
         spawned := [⟨[(some (DynamicArray.from_vec_string files), none)], false⟩],
         aborted := false }, newTable, cmdSent⟩
  | some (.error e) =>
      ⟨{ immediate := [],
         spawned := [⟨[(none, some (DeltaTableError.fromError fromNative e))], false⟩],
         aborted := false }, table, cmdSent⟩

/-- history (table.rs lines 187-195): the body is unimplemented and panics
across the C ABI on the calling thread, aborting the host process before any
callback invocation or scheduler submission. -/
def history (_table : DeltaTable) (_limit : Nat) :
    Trace (Option Unit × Option DeltaTableError) :=
  { immediate := [], spawned := [], aborted := true }

/-- table_load_with_datetime (table.rs lines 234-242): unimplemented panic
across the C ABI. -/
def table_load_with_datetime (_table : DeltaTable) (_ts_milliseconds : Int) :
    Trace (Option DeltaTableError) :=
  { immediate := [], spawned := [], aborted := true }

/-- table_merge (table.rs lines 244-252): unimplemented panic across the
C ABI. -/
def table_merge (_table : DeltaTable) (_version : Int) :
    Trace (Option DeltaTableError) :=
  { immediate := [], spawned := [], aborted := true }

/-- table_protocol (table.rs lines 254-262): unimplemented panic across the
C ABI. -/
def table_protocol (_table : DeltaTable) (_version : Int) :
    Trace (Option DeltaTableError) :=
  { immediate := [], spawned := [], aborted := true }

/-- table_restore (table.rs lines 264-272): unimplemented panic across the
C ABI. -/
def table_restore (_table : DeltaTable) (_version : Int) :
    Trace (Option DeltaTableError) :=
  { immediate := [], spawned := [], aborted := true }

/-- table_update (table.rs lines 274-282): unimplemented panic across the
C ABI. -/
def table_update (_table : DeltaTable) (_version : Int) :
    Trace (Option DeltaTableError) :=
  { immediate := [], spawned := [], aborted := true }

/-- Strict one-shot delivery for a two-pointer callback: the callback is
invoked exactly once, with exactly one of the success pointer and the error
pointer non-null. -/
def oneShotPair {α ε : Type} (t : Trace (Option α × Option ε)) : Prop :=
  ∃ p, t.allInvocations = [p] ∧
    ((p.1.isSome = true ∧ p.2 = none) ∨ (p.1 = none ∧ p.2.isSome = true))

/-- Strict one-shot delivery for an empty callback: the callback is invoked
exactly once (null error signalling success). -/
def oneShot {β : Type} (t : Trace β) : Prop :=
  ∃ x, t.allInvocations = [x]

/-! Helper lemmas about association lists, the newline split, and the
vacuum plumbing, shared by the claim theorems below. -/

theorem assocInsert_of_fresh {α β : Type} [DecidableEq α] (m : List (α × β)) (k : α) (v : β)
    (h : ∀ p ∈ m, p.1 ≠ k) : assocInsert m k v = m ++ [(k, v)] := by
  unfold assocInsert
  rw [List.filter_eq_self.mpr]
  intro p hp
  simpa using h p hp

theorem foldl_assocInsert_append {α β : Type} [DecidableEq α] (l : List (α × β)) :
    ∀ acc : List (α × β), (l.map Prod.fst).Nodup →
      (∀ p ∈ acc, ∀ q ∈ l, p.1 ≠ q.1) →
      l.foldl (fun m p => assocInsert m p.1 p.2) acc = acc ++ l := by
  induction l with
  | nil => intro acc _ _; simp
  | cons q rest ih =>
      intro acc hnd hdisj
      have hq : ∀ p ∈ acc, p.1 ≠ q.1 := fun p hp => hdisj p hp q (List.mem_cons_self q rest)
      rw [List.map_cons, List.nodup_cons] at hnd
      have hcons := hnd
      have step : assocInsert acc q.1 q.2 = acc ++ [q] := assocInsert_of_fresh acc q.1 q.2 hq
      have hdisj2 : ∀ p ∈ acc ++ [q], ∀ r ∈ rest, p.1 ≠ r.1 := by
        intro p hp r hr
        rcases List.mem_append.mp hp with hmem | hmem
        · exact hdisj p hmem r (List.mem_cons_of_mem q hr)
        · have hpq : p = q := by simpa using hmem
          subst hpq
          intro hEq
          exact hcons.1 (hEq ▸ List.mem_map.mpr ⟨r, hr, rfl⟩)
      calc (q :: rest).foldl (fun m p => assocInsert m p.1 p.2) acc
          = rest.foldl (fun m p => assocInsert m p.1 p.2) (assocInsert acc q.1 q.2) := rfl
        _ = rest.foldl (fun m p => assocInsert m p.1 p.2) (acc ++ [q]) := by rw [step]
        _ = (acc ++ [q]) ++ rest := ih (acc ++ [q]) hcons.2 hdisj2
        _ = acc ++ q :: rest := by simp

theorem foldl_assocInsert_nil {α β : Type} [DecidableEq α] (l : List (α × β))
    (hnd : (l.map Prod.fst).Nodup) :
    l.foldl (fun m p => assocInsert m p.1 p.2) [] = l := by
  simpa using foldl_assocInsert_append l [] hnd (by simp)

theorem find?_key_of_mem {α β : Type} [DecidableEq α] {l : List (α × β)} {k : α} {v : β}
    (hnd : (l.map Prod.fst).Nodup) (hmem : (k, v) ∈ l) :
    l.find? (fun p => p.1 = k) = some (k, v) := by
  induction l with
  | nil => cases hmem
  | cons q rest ih =>
      rw [List.map_cons, List.nodup_cons] at hnd
      have hcons := hnd
      rcases List.mem_cons.mp hmem with hh | hh
      · rw [← hh]
        exact List.find?_cons_of_pos _ (by simp)
      · have hne : q.1 ≠ k := by
          intro hEq
          exact hcons.1 (hEq ▸ List.mem_map.mpr ⟨(k, v), hh, rfl⟩)
        rw [List.find?_cons_of_neg _ (by simpa using hne)]
        exact ih hcons.2 hh

theorem find?_key_of_not_mem {α β : Type} [DecidableEq α] {l : List (α × β)} {k : α}
    (h : k ∉ l.map Prod.fst) : l.find? (fun p => p.1 = k) = none := by
  rw [List.find?_eq_none]
  intro p hp hpk
  have hk : p.1 = k := by simpa using hpk
  exact h (hk ▸ List.mem_map.mpr ⟨p, hp, rfl⟩)

theorem assocLookup_of_mem {α β : Type} [DecidableEq α] {l : List (α × β)} {k : α} {v : β}
    (hnd : (l.map Prod.fst).Nodup) (hmem : (k, v) ∈ l) :
    assocLookup l k = some v := by
  unfold assocLookup
  rw [find?_key_of_mem hnd hmem]
  rfl

theorem assocLookup_of_not_mem {α β : Type} [DecidableEq α] {l : List (α × β)} {k : α}
    (h : k ∉ l.map Prod.fst) : assocLookup l k = none := by
  unfold assocLookup
  rw [find?_key_of_not_mem h]
  rfl

theorem mapAddAll_some (pairs : List (String × String)) :
    ∀ m : Map, mapAddAll pairs (some m) =
      some ⟨pairs.foldl (fun d p => assocInsert d p.1 p.2) m.data⟩ := by
  induction pairs with
  | nil => intro m; rfl
  | cons q rest ih =>
      intro m
      exact ih ⟨assocInsert m.data q.1 q.2⟩

theorem splitNl_cons (c : Char) (rest : List Char) :
    splitNl (c :: rest) =
      if c = '\n' then [] :: splitNl rest
      else
        match splitNl rest with
        | [] => [[c]]
        | g :: gs => (c :: g) :: gs := rfl

theorem splitNl_no_newline (p : List Char) (h : '\n' ∉ p) : splitNl p = [p] := by
  induction p with
  | nil => rfl
  | cons c rest ih =>
      have hc : c ≠ '\n' := fun hEq => h (hEq ▸ List.mem_cons_self c rest)
      have hrest : '\n' ∉ rest := fun hm => h (List.mem_cons_of_mem c hm)
      rw [splitNl_cons, if_neg hc, ih hrest]

theorem splitNl_append (p t : List Char) (h : '\n' ∉ p) :
    splitNl (p ++ '\n' :: t) = p :: splitNl t := by
  induction p with
  | nil => simp [splitNl_cons]
  | cons c rest ih =>
      have hc : c ≠ '\n' := fun hEq => h (hEq ▸ List.mem_cons_self c rest)
      have hrest : '\n' ∉ rest := fun hm => h (List.mem_cons_of_mem c hm)
      rw [List.cons_append, splitNl_cons, if_neg hc, ih hrest]

theorem splitNl_newlineBlock (parts : List (List Char)) (hne : parts ≠ [])
    (h : ∀ p ∈ parts, '\n' ∉ p) : splitNl (newlineBlock parts) = parts := by
  induction parts with
  | nil => exact absurd rfl hne
  | cons p rest ih =>
      cases rest with
      | nil => simpa [newlineBlock] using splitNl_no_newline p (h p (by simp))
      | cons q rest2 =>
          rw [show newlineBlock (p :: q :: rest2) = p ++ '\n' :: newlineBlock (q :: rest2) from
                rfl,
            splitNl_append _ _ (h p (by simp)),
            ih (by simp) (fun r hr => h r (List.mem_cons_of_mem p hr))]

theorem chunkPairs_interleave {α : Type} :
    ∀ (ks vs : List α), ks.length = vs.length →
      chunkPairs (interleave ks vs) = ks.zip vs
  | [], [], _ => rfl
  | [], _ :: _, h => by simp at h
  | _ :: _, [], h => by simp at h
  | k :: ks, v :: vs, h => by
      have h2 : ks.length = vs.length := by simpa using h
      show (k, v) :: chunkPairs (interleave ks vs) = (k, v) :: ks.zip vs
      rw [chunkPairs_interleave ks vs h2]

theorem mem_interleave {α : Type} :
    ∀ (ks vs : List α) (x : α), x ∈ interleave ks vs → x ∈ ks ∨ x ∈ vs
  | [], _, _, h => by cases h
  | _ :: _, [], _, h => by cases h
  | k :: ks, v :: vs, x, h => by
      rcases List.mem_cons.mp h with h1 | h1
      · exact Or.inl (h1 ▸ List.mem_cons_self _ _)
      rcases List.mem_cons.mp h1 with h2 | h2
      · exact Or.inr (h2 ▸ List.mem_cons_self _ _)
      rcases mem_interleave ks vs x h2 with h3 | h3
      · exact Or.inl (List.mem_cons_of_mem _ h3)
      · exact Or.inr (List.mem_cons_of_mem _ h3)

theorem timeDeltaHours_of_le (h : Nat) (hb : h ≤ timeDeltaMaxHours) :
    timeDeltaHours (u64ToI64 h) = some ((h : Int) * 3600) := by
  have h63 : h < 2 ^ 63 := lt_of_le_of_lt hb (by decide)
  have habs : ((h : Int)).natAbs ≤ timeDeltaMaxHours := by rwa [Int.natAbs_ofNat]
  unfold u64ToI64 timeDeltaHours
  rw [if_pos h63, if_pos habs]

theorem buildVacuumCmd_none_retention (st : TableState) (dr enf : Bool)
    (md : Option (List (String × String))) :
    buildVacuumCmd st dr none enf md = some ⟨st, enf, dr, none, md.map jsonMapOf⟩ := by
  cases md <;> simp [buildVacuumCmd]

theorem buildVacuumCmd_some_retention (st : TableState) (dr enf : Bool)
    (md : Option (List (String × String))) (h : Nat) (hb : h ≤ timeDeltaMaxHours) :
    buildVacuumCmd st dr (some h) enf md =
      some ⟨st, enf, dr, some ((h : Int) * 3600), md.map jsonMapOf⟩ := by
  cases md <;> simp [buildVacuumCmd, timeDeltaHours_of_le h hb]

theorem timeDeltaHours_of_panic_band (n : Nat) (h1 : timeDeltaMaxHours < n)
    (h2 : n < 2 ^ 64 - timeDeltaMaxHours) :
    timeDeltaHours (u64ToI64 n) = none := by
  simp only [timeDeltaMaxHours] at h1 h2
  unfold u64ToI64 timeDeltaHours
  by_cases h63 : n < 2 ^ 63
  · have hc : ¬ ((n : Int)).natAbs ≤ timeDeltaMaxHours := by
      simp only [Int.natAbs_ofNat, timeDeltaMaxHours]
      omega
    rw [if_pos h63, if_neg hc]
  · have hc : ¬ ((n : Int) - 2 ^ 64).natAbs ≤ timeDeltaMaxHours := by
      have hw : ((n : Int) - 2 ^ 64).natAbs = 2 ^ 64 - n := by omega
      simp only [hw, timeDeltaMaxHours]
      omega
    rw [if_neg h63, if_neg hc]

theorem timeDeltaHours_of_wrap_band (n : Nat) (h1 : 2 ^ 64 - timeDeltaMaxHours ≤ n)
    (h2 : n < 2 ^ 64) :
    timeDeltaHours (u64ToI64 n) = some (((n : Int) - 2 ^ 64) * 3600) := by
  have h63 : ¬ n < 2 ^ 63 := by
    simp only [timeDeltaMaxHours] at h1
    omega
  have hc : ((n : Int) - 2 ^ 64).natAbs ≤ timeDeltaMaxHours := by
    have hw : ((n : Int) - 2 ^ 64).natAbs = 2 ^ 64 - n := by omega
    simp only [hw, timeDeltaMaxHours]
    simp only [timeDeltaMaxHours] at h1
    omega
  unfold u64ToI64 timeDeltaHours
  rw [if_neg h63, if_pos hc]

theorem buildVacuumCmd_wrap_retention (st : TableState) (dr enf : Bool)
    (md : Option (List (String × String))) (n : Nat)
    (h1 : 2 ^ 64 - timeDeltaMaxHours ≤ n) (h2 : n < 2 ^ 64) :
    buildVacuumCmd st dr (some n) enf md =
      some ⟨st, enf, dr, some (((n : Int) - 2 ^ 64) * 3600), md.map jsonMapOf⟩ := by
  cases md <;> simp [buildVacuumCmd, timeDeltaHours_of_wrap_band n h1 h2]

theorem buildVacuumCmd_panic_band (st : TableState) (dr enf : Bool)
    (md : Option (List (String × String))) (n : Nat)
    (h1 : timeDeltaMaxHours < n) (h2 : n < 2 ^ 64 - timeDeltaMaxHours) :
    buildVacuumCmd st dr (some n) enf md = none := by
  simp [buildVacuumCmd, timeDeltaHours_of_panic_band n h1 h2]

theorem buildVacuumCmd_metadata (st : TableState) (dr enf : Bool) (rh : Option Nat)
    (md : Option (List (String × String))) (cmd : VacuumCmd)
    (h : buildVacuumCmd st dr rh enf md = some cmd) :
    cmd.metadata = md.map jsonMapOf := by
  unfold buildVacuumCmd at h
  cases rh with
  | none =>
      cases md with
      | none => simp at h; rw [← h]; rfl
      | some mm => simp at h; rw [← h]; rfl
  | some n =>
      cases hth : timeDeltaHours (u64ToI64 n) with
      | none => simp [hth] at h
      | some secs =>
          cases md with
          | none => simp [hth] at h; rw [← h]; rfl
          | some mm => simp [hth] at h; rw [← h]; rfl

theorem table_vacuum_eq_of_no_state (fromNative : Nat → String → DeltaTableErrorCode)
    (eng : VacuumEngine) (t : DeltaTable) (opts : VacuumOptions) (ht : t.state = none) :
    table_vacuum fromNative eng t opts =
      ⟨{ immediate := [],
         spawned := [⟨[(none, some (DeltaTableError.fromError fromNative .noMetadata))], false⟩],
         aborted := false }, t, none⟩ := by
  simp [table_vacuum, vacuum, ht]

theorem table_vacuum_cmdSent (fromNative : Nat → String → DeltaTableErrorCode)
    (eng : VacuumEngine) (t : DeltaTable) (opts : VacuumOptions) :
    (table_vacuum fromNative eng t opts).cmdSent =
      match t.state with
      | none => none
      | some st =>
          buildVacuumCmd st opts.dry_run
            (if opts.retention_hours > 0 then some opts.retention_hours else none)
            opts.enforce_retention_duration (opts.custom_metadata.map Map.data) := by
  cases ht : t.state with
  | none => simp [table_vacuum, vacuum, ht]
  | some st =>
      simp only [table_vacuum, vacuum, ht]
      cases hc : buildVacuumCmd st opts.dry_run
          (if opts.retention_hours > 0 then some opts.retention_hours else none)
          opts.enforce_retention_duration (opts.custom_metadata.map Map.data) with
      | none => simp [hc]
      | some cmd => cases heng : eng cmd <;> simp [hc, heng]

theorem table_vacuum_eq_of_cmd (fromNative : Nat → String → DeltaTableErrorCode)
    (eng : VacuumEngine) (t : DeltaTable) (opts : VacuumOptions) (st : TableState)
    (cmd : VacuumCmd) (ht : t.state = some st)
    (hcmd : buildVacuumCmd st opts.dry_run
        (if opts.retention_hours > 0 then some opts.retention_hours else none)
        opts.enforce_retention_duration (opts.custom_metadata.map Map.data) = some cmd) :
    table_vacuum fromNative eng t opts =
      match eng cmd with
      | .ok (ns, files) =>
          ⟨{ immediate := [],
             spawned := [⟨[(some (DynamicArray.from_vec_string files), none)], false⟩],
             aborted := false }, { t with state := ns }, some cmd⟩
      | .error e =>
          ⟨{ immediate := [],
             spawned := [⟨[(none, some (DeltaTableError.fromError fromNative e))], false⟩],
             aborted := false }, t, some cmd⟩ := by
  simp only [table_vacuum, vacuum, ht, hcmd]
  cases heng : eng cmd <;> simp [heng]

theorem table_vacuum_eq_of_panic (fromNative : Nat → String → DeltaTableErrorCode)
    (eng : VacuumEngine) (t : DeltaTable) (opts : VacuumOptions) (st : TableState)
    (ht : t.state = some st)
    (hcmd : buildVacuumCmd st opts.dry_run
        (if opts.retention_hours > 0 then some opts.retention_hours else none)
        opts.enforce_retention_duration (opts.custom_metadata.map Map.data) = none) :
    table_vacuum fromNative eng t opts =
      ⟨{ immediate := [], spawned := [⟨[], true⟩], aborted := false }, t, none⟩ := by
  simp [table_vacuum, vacuum, ht, hcmd]

theorem vacuum_oneShotPair_of_cmd (fromNative : Nat → String → DeltaTableErrorCode)
    (eng : VacuumEngine) (t : DeltaTable) (opts : VacuumOptions) (st : TableState)
    (cmd : VacuumCmd) (ht : t.state = some st)
    (hcmd : buildVacuumCmd st opts.dry_run
        (if opts.retention_hours > 0 then some opts.retention_hours else none)
        opts.enforce_retention_duration (opts.custom_metadata.map Map.data) = some cmd) :
    oneShotPair (table_vacuum fromNative eng t opts).trace := by
  have hEq := table_vacuum_eq_of_cmd fromNative eng t opts st cmd ht hcmd
  cases heng : eng cmd with
  | ok pr =>
      obtain ⟨ns, files⟩ := pr
      rw [heng] at hEq
      refine ⟨(some (DynamicArray.from_vec_string files), none), ?_, Or.inl ⟨rfl, rfl⟩⟩
      rw [hEq]
      rfl
  | error e =>
      rw [heng] at hEq
      refine ⟨(none, some (DeltaTableError.fromError fromNative e)), ?_, Or.inr ⟨rfl, rfl⟩⟩
      rw [hEq]
      rfl

theorem buildLoader_eq (uri : List UInt8) (options : TableOptions) :
    buildLoader uri options =
      ⟨uri, if 0 < options.version then some options.version else none,
        options.storage_options.map Map.data, options.without_files,
        if 0 < options.log_buffer_size then some options.log_buffer_size else none⟩ := by
  obtain ⟨v, so, wf, lbs⟩ := options
  cases so <;> cases wf <;> by_cases hv : 0 < v <;> by_cases hl : 0 < lbs <;>
    simp [buildLoader, DeltaTableBuilder.from_uri, hv, hl]

/-! Claim theorems. -/

/-- C10: table_new applies the caller version to the engine table loader
only when it is positive and the log-read buffer size only when it is
positive; a zero or negative version and a zero buffer size silently leave
the engine defaults in place, so no option value can request a load pinned
at version 0. -/
theorem c10_table_new_loader_config (uri : List UInt8) (options : TableOptions) :
    (buildLoader uri options).version
        = (if 0 < options.version then some options.version else none)
    ∧ (buildLoader uri options).log_buffer_size
        = (if 0 < options.log_buffer_size then some options.log_buffer_size else none)
    ∧ (buildLoader uri options).version ≠ some 0
    ∧ ∀ (fromNative : Nat → String → DeltaTableErrorCode)
        (engineLoad : DeltaTableBuilder → Except EngineError DeltaTable),
        utf8Valid uri = true →
        table_new fromNative engineLoad uri options =
          { immediate := [],
            spawned :=
              [⟨[loadResultInvocation fromNative (engineLoad (buildLoader uri options))], false⟩],
            aborted := false } := by
  refine ⟨by rw [buildLoader_eq], by rw [buildLoader_eq], ?_, ?_⟩
  · rw [buildLoader_eq]
    by_cases hv : 0 < options.version <;> simp [hv]
    omega
  · intro fromNative engineLoad h
    simp [table_new, h]

/-- C10 witness: a concrete valid-UTF-8 location with version 0 and buffer
size 0 leaves the loader at the engine defaults and submits the load. -/
theorem c10_table_new_loader_config_witness :
    (buildLoader [0x61] ⟨0, none, false, 0⟩).version = (if (0 : Int) < 0 then some 0 else none)
    ∧ (buildLoader [0x61] ⟨0, none, false, 0⟩).log_buffer_size
        = (if 0 < 0 then some 0 else none)
    ∧ (buildLoader [0x61] ⟨0, none, false, 0⟩).version ≠ some 0
    ∧ table_new (fun _ _ => .storage) (fun _ => .error .noMetadata) [0x61] ⟨0, none, false, 0⟩ =
        { immediate := [],
          spawned := [⟨[loadResultInvocation (fun _ _ => .storage)
            ((fun _ => .error .noMetadata) (buildLoader [0x61] ⟨0, none, false, 0⟩))], false⟩],
          aborted := false } := by
  obtain ⟨h1, h2, h3, h4⟩ := c10_table_new_loader_config [0x61] ⟨0, none, false, 0⟩
  exact ⟨h1, h2, h3, h4 (fun _ _ => .storage) (fun _ => .error .noMetadata) (by decide)⟩

/-- C9: every engine failure of table_checkpoint is delivered through the
callback with the protocol error category, never with the native engine
category passed through. -/
theorem c9_checkpoint_protocol_category
    (engineCheckpoint : DeltaTable → Except EngineError Unit) (table : DeltaTable)
    (e : EngineError) (h : engineCheckpoint table = .error e) :
    (table_checkpoint engineCheckpoint table).allInvocations
      = [some ⟨DeltaTableErrorCode.protocol, e.toMessage⟩] := by
  simp [table_checkpoint, Trace.allInvocations, h]

/-- C9 witness: a concrete engine checkpoint failure with a native kind is
delivered under the protocol category. -/
theorem c9_checkpoint_protocol_category_witness :
    (table_checkpoint (fun _ => .error (.native 7 "native failure")) ⟨some 0⟩).allInvocations
      = [some ⟨DeltaTableErrorCode.protocol, "native failure"⟩] :=
  c9_checkpoint_protocol_category _ ⟨some 0⟩ (.native 7 "native failure") rfl

/-- C6: the unimplemented operations (history, table_load_with_datetime,
table_merge, table_protocol, table_restore, table_update) panic across the
C ABI on every call, aborting the host process; no not-implemented error
object is ever delivered through the callback channel. This proves the code
diverges from the claim. -/
theorem c6_unimplemented_operations_abort (table : DeltaTable) (limit : Nat)
    (ts : Int) (version : Int) :
    ((history table limit).aborted = true
      ∧ (history table limit).allInvocations = [])
    ∧ ((table_load_with_datetime table ts).aborted = true
      ∧ (table_load_with_datetime table ts).allInvocations = [])
    ∧ ((table_merge table version).aborted = true
      ∧ (table_merge table version).allInvocations = [])
    ∧ ((table_protocol table version).aborted = true
      ∧ (table_protocol table version).allInvocations = [])
    ∧ ((table_restore table version).aborted = true
      ∧ (table_restore table version).allInvocations = [])
    ∧ ((table_update table version).aborted = true
      ∧ (table_update table version).allInvocations = []) := by
  simp [history, table_load_with_datetime, table_merge, table_protocol, table_restore,
    table_update, Trace.allInvocations]

/-- C5: table_new with a non-UTF-8 location invokes the callback on the
calling thread with a null handle and a Utf8-category error and submits
nothing to the scheduler; with a valid-UTF-8 location nothing runs on the
calling thread and exactly one load is submitted. -/
theorem c5_table_new_utf8_gate (fromNative : Nat → String → DeltaTableErrorCode)
    (engineLoad : DeltaTableBuilder → Except EngineError DeltaTable)
    (uri : List UInt8) (options : TableOptions) :
    (utf8Valid uri = false →
      (∃ err : DeltaTableError,
        (table_new fromNative engineLoad uri options).immediate = [(none, some err)]
          ∧ err.code = .utf8)
      ∧ (table_new fromNative engineLoad uri options).spawned = [])
    ∧ (utf8Valid uri = true →
      (table_new fromNative engineLoad uri options).immediate = []
      ∧ (table_new fromNative engineLoad uri options).spawned.length = 1) := by
  constructor
  · intro h
    refine ⟨⟨⟨.utf8, utf8ErrorMessage uri⟩, ?_, rfl⟩, ?_⟩ <;> simp [table_new, h]
  · intro h
    simp [table_new, h]

/-- C5 witness: the invalid byte 0xFF fails on the calling thread with the
Utf8 category and nothing spawned; the valid byte 0x61 spawns one load. -/
theorem c5_table_new_utf8_gate_witness :
    ((∃ err : DeltaTableError,
        (table_new (fun _ _ => .storage) (fun _ => .error .noMetadata) [0xFF]
          ⟨0, none, false, 0⟩).immediate = [(none, some err)]
        ∧ err.code = .utf8)
      ∧ (table_new (fun _ _ => .storage) (fun _ => .error .noMetadata) [0xFF]
          ⟨0, none, false, 0⟩).spawned = [])
    ∧ ((table_new (fun _ _ => .storage) (fun _ => .error .noMetadata) [0x61]
          ⟨0, none, false, 0⟩).immediate = []
      ∧ (table_new (fun _ _ => .storage) (fun _ => .error .noMetadata) [0x61]
          ⟨0, none, false, 0⟩).spawned.length = 1) :=
  ⟨(c5_table_new_utf8_gate (fun _ _ => .storage) (fun _ => .error .noMetadata) [0xFF]
      ⟨0, none, false, 0⟩).1 (by decide),
   (c5_table_new_utf8_gate (fun _ _ => .storage) (fun _ => .error .noMetadata) [0x61]
      ⟨0, none, false, 0⟩).2 (by decide)⟩

/-- C1 counterexample: table_vacuum with retention_hours = 2 ^ 63 on a
table with loaded state never invokes its callback: the u64 to i64 cast
wraps negative and the chrono duration construction panics, killing the
spawned task before the callback, so the one-shot contract fails on this
execution path. -/
theorem c1_counterexample_vacuum_no_invocation :
    ((table_vacuum (fun _ _ => .storage) (fun _ => .ok (some 0, []))
        ⟨some 0⟩ ⟨false, 2 ^ 63, true, none⟩).trace.allInvocations).length = 0 := by
  decide

/-- C1 (amended): table_new, table_update_incremental, table_load_version
and table_checkpoint invoke their completion callback exactly once on every
execution path, with exactly one of the success value and the error object
non-null. table_vacuum does so as well on every path except one: when the
snapshot state is loaded and retention_hours lies strictly between
2562047788015 (the bound of the engine duration type) and
2 ^ 64 - 2562047788015, the duration conversion panics inside the spawned
task and the callback is never invoked; outside that band, including the
wrap band from 2 ^ 64 - 2562047788015 up to 2 ^ 64 where the cast yields an
in-bounds negative duration, delivery is one-shot and exclusive. -/
theorem c1_callback_one_shot :
    (∀ (fromNative : Nat → String → DeltaTableErrorCode)
        (engineLoad : DeltaTableBuilder → Except EngineError DeltaTable)
        (uri : List UInt8) (options : TableOptions),
        oneShotPair (table_new fromNative engineLoad uri options))
    ∧ (∀ (fromNative : Nat → String → DeltaTableErrorCode)
        (engineUpdate : DeltaTable → Except EngineError Unit) (table : DeltaTable),
        oneShot (table_update_incremental fromNative engineUpdate table))
    ∧ (∀ (fromNative : Nat → String → DeltaTableErrorCode)
        (engineLoadVersion : DeltaTable → Int → Except EngineError Unit)
        (table : DeltaTable) (version : Int),
        oneShot (table_load_version fromNative engineLoadVersion table version))
    ∧ (∀ (engineCheckpoint : DeltaTable → Except EngineError Unit) (table : DeltaTable),
        oneShot (table_checkpoint engineCheckpoint table))
    ∧ (∀ (fromNative : Nat → String → DeltaTableErrorCode) (eng : VacuumEngine)
        (table : DeltaTable) (options : VacuumOptions),
        table.state = none
          ∨ options.retention_hours ≤ timeDeltaMaxHours
          ∨ (2 ^ 64 - timeDeltaMaxHours ≤ options.retention_hours
              ∧ options.retention_hours < 2 ^ 64) →
        oneShotPair (table_vacuum fromNative eng table options).trace)
    ∧ (∀ (fromNative : Nat → String → DeltaTableErrorCode) (eng : VacuumEngine)
        (table : DeltaTable) (options : VacuumOptions) (st : TableState),
        table.state = some st →
        timeDeltaMaxHours < options.retention_hours →
        options.retention_hours < 2 ^ 64 - timeDeltaMaxHours →
        (table_vacuum fromNative eng table options).trace.allInvocations = []) := by
  refine ⟨?_, ?_, ?_, ?_, ?_, ?_⟩
  · intro f load uri opts
    by_cases h : utf8Valid uri
    · cases hres : load (buildLoader uri opts) with
      | ok t =>
          refine ⟨(some ⟨t⟩, none), ?_, Or.inl ⟨rfl, rfl⟩⟩
          simp [table_new, h, Trace.allInvocations, loadResultInvocation, hres]
      | error e =>
          refine ⟨(none, some (DeltaTableError.fromError f e)), ?_, Or.inr ⟨rfl, rfl⟩⟩
          simp [table_new, h, Trace.allInvocations, loadResultInvocation, hres]
    · refine ⟨(none, some ⟨.utf8, utf8ErrorMessage uri⟩), ?_, Or.inr ⟨rfl, rfl⟩⟩
      simp [table_new, h, Trace.allInvocations]
  · intro f eng t
    cases h : eng t with
    | ok u =>
        exact ⟨none, by simp [table_update_incremental, Trace.allInvocations, h]⟩
    | error e =>
        exact ⟨some (DeltaTableError.fromError f e),
          by simp [table_update_incremental, Trace.allInvocations, h]⟩
  · intro f eng t v
    cases h : eng t v with
    | ok u =>
        exact ⟨none, by simp [table_load_version, Trace.allInvocations, h]⟩
    | error e =>
        exact ⟨some (DeltaTableError.fromError f e),
          by simp [table_load_version, Trace.allInvocations, h]⟩
  · intro eng t
    cases h : eng t with
    | ok u => exact ⟨none, by simp [table_checkpoint, Trace.allInvocations, h]⟩
    | error e =>
        exact ⟨some ⟨.protocol, e.toMessage⟩,
          by simp [table_checkpoint, Trace.allInvocations, h]⟩
  · intro f eng t opts hband
    cases ht : t.state with
    | none =>
        refine ⟨(none, some (DeltaTableError.fromError f .noMetadata)), ?_, Or.inr ⟨rfl, rfl⟩⟩
        rw [table_vacuum_eq_of_no_state f eng t opts ht]
        rfl
    | some st =>
        rcases hband with hnone | hb | ⟨hb1, hb2⟩
        · rw [ht] at hnone
          cases hnone
        · by_cases h0 : opts.retention_hours > 0
          · have hif : (if opts.retention_hours > 0 then some opts.retention_hours else none)
                = some opts.retention_hours := if_pos h0
            have hcmd := buildVacuumCmd_some_retention st opts.dry_run
              opts.enforce_retention_duration (opts.custom_metadata.map Map.data)
              opts.retention_hours hb
            rw [← hif] at hcmd
            exact vacuum_oneShotPair_of_cmd f eng t opts st _ ht hcmd
          · have hif : (if opts.retention_hours > 0 then some opts.retention_hours else none)
                = none := if_neg h0
            have hcmd := buildVacuumCmd_none_retention st opts.dry_run
              opts.enforce_retention_duration (opts.custom_metadata.map Map.data)
            rw [← hif] at hcmd
            exact vacuum_oneShotPair_of_cmd f eng t opts st _ ht hcmd
        · have h0 : opts.retention_hours > 0 :=
            lt_of_lt_of_le (by decide : (0 : Nat) < 2 ^ 64 - timeDeltaMaxHours) hb1
          have hif : (if opts.retention_hours > 0 then some opts.retention_hours else none)
              = some opts.retention_hours := if_pos h0
          have hcmd := buildVacuumCmd_wrap_retention st opts.dry_run
            opts.enforce_retention_duration (opts.custom_metadata.map Map.data)
            opts.retention_hours hb1 hb2
          rw [← hif] at hcmd
          exact vacuum_oneShotPair_of_cmd f eng t opts st _ ht hcmd
  · intro f eng t opts st ht h1 h2
    have h0 : opts.retention_hours > 0 := lt_of_le_of_lt (Nat.zero_le _) h1
    have hif : (if opts.retention_hours > 0 then some opts.retention_hours else none)
        = some opts.retention_hours := if_pos h0
    have hcmd := buildVacuumCmd_panic_band st opts.dry_run
      opts.enforce_retention_duration (opts.custom_metadata.map Map.data)
      opts.retention_hours h1 h2
    rw [← hif] at hcmd
    rw [table_vacuum_eq_of_panic f eng t opts st ht hcmd]
    rfl

/-- C1 witness: one-shot exclusive delivery at concrete vacuum calls with a
low-band retention of one hour and with the wrapped value 2 ^ 64 - 1, and
zero invocations at the panic-band value 2 ^ 63. -/
theorem c1_callback_one_shot_witness :
    oneShotPair (table_vacuum (fun _ _ => .storage) (fun _ => .ok (some 1, ["part-1"]))
      ⟨some 0⟩ ⟨false, 1, true, none⟩).trace
    ∧ oneShotPair (table_vacuum (fun _ _ => .storage) (fun _ => .ok (some 1, ["part-1"]))
      ⟨some 0⟩ ⟨false, 2 ^ 64 - 1, true, none⟩).trace
    ∧ (table_vacuum (fun _ _ => .storage) (fun _ => .ok (some 1, ["part-1"]))
      ⟨some 0⟩ ⟨false, 2 ^ 63, true, none⟩).trace.allInvocations = [] :=
  ⟨c1_callback_one_shot.2.2.2.2.1 (fun _ _ => .storage) (fun _ => .ok (some 1, ["part-1"]))
      ⟨some 0⟩ ⟨false, 1, true, none⟩ (Or.inr (Or.inl (by decide))),
   c1_callback_one_shot.2.2.2.2.1 (fun _ _ => .storage) (fun _ => .ok (some 1, ["part-1"]))
      ⟨some 0⟩ ⟨false, 2 ^ 64 - 1, true, none⟩ (Or.inr (Or.inr ⟨by decide, by decide⟩)),
   c1_callback_one_shot.2.2.2.2.2 (fun _ _ => .storage) (fun _ => .ok (some 1, ["part-1"]))
      ⟨some 0⟩ ⟨false, 2 ^ 63, true, none⟩ 0 rfl (by decide) (by decide)⟩

/-- C2 counterexample: table_vacuum on a handle with no loaded snapshot
state still submits one work unit to the scheduler, where the
missing-metadata failure is then determined; the claim says nothing is
submitted before the failure is determined. -/
theorem c2_counterexample_work_submitted :
    ((table_vacuum (fun _ _ => .storage) (fun _ => .ok (some 0, []))
        ⟨none⟩ ⟨false, 0, false, none⟩).trace.spawned).length = 1 := by
  decide

/-- C2 (amended): vacuum on a handle with no loaded snapshot state delivers
the missing-metadata category through the callback, leaves the table
untouched and never builds or executes an engine vacuum command, but the
check runs inside the single work unit that table_vacuum always submits to
the scheduler, not before submission. -/
theorem c2_vacuum_no_state (fromNative : Nat → String → DeltaTableErrorCode)
    (eng : VacuumEngine) (t : DeltaTable) (opts : VacuumOptions) (ht : t.state = none) :
    (table_vacuum fromNative eng t opts).trace.immediate = []
    ∧ (table_vacuum fromNative eng t opts).trace.spawned.length = 1
    ∧ (∃ e : DeltaTableError,
        (table_vacuum fromNative eng t opts).trace.allInvocations = [(none, some e)]
        ∧ e.code = .noMetadata)
    ∧ (table_vacuum fromNative eng t opts).finalTable = t
    ∧ (table_vacuum fromNative eng t opts).cmdSent = none
    ∧ ∀ eng2 : VacuumEngine,
        table_vacuum fromNative eng t opts = table_vacuum fromNative eng2 t opts := by
  rw [table_vacuum_eq_of_no_state fromNative eng t opts ht]
  refine ⟨rfl, rfl, ⟨⟨.noMetadata, EngineError.toMessage .noMetadata⟩, rfl, rfl⟩, rfl, rfl, ?_⟩
  intro eng2
  rw [table_vacuum_eq_of_no_state fromNative eng2 t opts ht]

/-- C2 witness: the amended statement at a concrete state-free handle. -/
theorem c2_vacuum_no_state_witness :
    (table_vacuum (fun _ _ => .storage) (fun _ => .ok (some 0, []))
        ⟨none⟩ ⟨true, 5, true, none⟩).trace.immediate = []
    ∧ (table_vacuum (fun _ _ => .storage) (fun _ => .ok (some 0, []))
        ⟨none⟩ ⟨true, 5, true, none⟩).trace.spawned.length = 1
    ∧ (∃ e : DeltaTableError,
        (table_vacuum (fun _ _ => .storage) (fun _ => .ok (some 0, []))
          ⟨none⟩ ⟨true, 5, true, none⟩).trace.allInvocations = [(none, some e)]
        ∧ e.code = .noMetadata)
    ∧ (table_vacuum (fun _ _ => .storage) (fun _ => .ok (some 0, []))
        ⟨none⟩ ⟨true, 5, true, none⟩).finalTable = ⟨none⟩
    ∧ (table_vacuum (fun _ _ => .storage) (fun _ => .ok (some 0, []))
        ⟨none⟩ ⟨true, 5, true, none⟩).cmdSent = none
    ∧ ∀ eng2 : VacuumEngine,
        table_vacuum (fun _ _ => .storage) (fun _ => .ok (some 0, []))
            ⟨none⟩ ⟨true, 5, true, none⟩
          = table_vacuum (fun _ _ => .storage) eng2 ⟨none⟩ ⟨true, 5, true, none⟩ :=
  c2_vacuum_no_state (fun _ _ => .storage) (fun _ => .ok (some 0, []))
    ⟨none⟩ ⟨true, 5, true, none⟩ rfl

/-- C3 counterexample: with retention_hours = 2 ^ 63 the claimed
exactly-N-hours retention never reaches the engine vacuum builder: the cast
wraps negative, the duration construction panics, the spawned task dies and
no command is passed downstream. -/
theorem c3_counterexample_retention_overflow :
    (table_vacuum (fun _ _ => .storage) (fun _ => .ok (some 0, []))
        ⟨some 0⟩ ⟨true, 2 ^ 63, true, none⟩).cmdSent = none
    ∧ (table_vacuum (fun _ _ => .storage) (fun _ => .ok (some 0, []))
        ⟨some 0⟩ ⟨true, 2 ^ 63, true, none⟩).trace.spawned = [⟨[], true⟩] := by
  decide

/-- C3 (amended): on a handle with loaded state, retention_hours = 0 passes
no retention period to the engine vacuum builder (the engine default policy
applies); 0 < N within the bounds of the engine duration type (at most
2562047788015) passes a retention duration of exactly N hours, that is
N * 3600 seconds; for N strictly between 2562047788015 and
2 ^ 64 - 2562047788015 the cast and the duration construction overflow, the
task panics and nothing is passed to the builder; and for N from
2 ^ 64 - 2562047788015 up to 2 ^ 64 the cast wraps to an in-bounds negative
value and a retention duration of N - 2 ^ 64 hours, not N hours, is passed
to the builder. -/
theorem c3_vacuum_retention (fromNative : Nat → String → DeltaTableErrorCode)
    (eng : VacuumEngine) (t : DeltaTable) (opts : VacuumOptions) (st : TableState)
    (ht : t.state = some st) :
    (opts.retention_hours = 0 →
      ∃ cmd, (table_vacuum fromNative eng t opts).cmdSent = some cmd
        ∧ cmd.retention_period_secs = none)
    ∧ (0 < opts.retention_hours → opts.retention_hours ≤ timeDeltaMaxHours →
      ∃ cmd, (table_vacuum fromNative eng t opts).cmdSent = some cmd
        ∧ cmd.retention_period_secs = some ((opts.retention_hours : Int) * 3600))
    ∧ (timeDeltaMaxHours < opts.retention_hours →
        opts.retention_hours < 2 ^ 64 - timeDeltaMaxHours →
      (table_vacuum fromNative eng t opts).cmdSent = none)
    ∧ (2 ^ 64 - timeDeltaMaxHours ≤ opts.retention_hours → opts.retention_hours < 2 ^ 64 →
      ∃ cmd, (table_vacuum fromNative eng t opts).cmdSent = some cmd
        ∧ cmd.retention_period_secs
            = some (((opts.retention_hours : Int) - 2 ^ 64) * 3600)) := by
  have hsent := table_vacuum_cmdSent fromNative eng t opts
  simp only [ht] at hsent
  refine ⟨?_, ?_, ?_, ?_⟩
  · intro h0
    have hif : (if opts.retention_hours > 0 then some opts.retention_hours else none)
        = none := by simp [h0]
    rw [hif, buildVacuumCmd_none_retention] at hsent
    exact ⟨_, hsent, rfl⟩
  · intro hpos hb
    have hif : (if opts.retention_hours > 0 then some opts.retention_hours else none)
        = some opts.retention_hours := if_pos hpos
    rw [hif, buildVacuumCmd_some_retention st opts.dry_run
      opts.enforce_retention_duration (opts.custom_metadata.map Map.data)
      opts.retention_hours hb] at hsent
    exact ⟨_, hsent, rfl⟩
  · intro h1 h2
    have hpos : opts.retention_hours > 0 := lt_of_le_of_lt (Nat.zero_le _) h1
    have hif : (if opts.retention_hours > 0 then some opts.retention_hours else none)
        = some opts.retention_hours := if_pos hpos
    rw [hif, buildVacuumCmd_panic_band st opts.dry_run
      opts.enforce_retention_duration (opts.custom_metadata.map Map.data)
      opts.retention_hours h1 h2] at hsent
    exact hsent
  · intro h1 h2
    have hpos : opts.retention_hours > 0 :=
      lt_of_lt_of_le (by decide : (0 : Nat) < 2 ^ 64 - timeDeltaMaxHours) h1
    have hif : (if opts.retention_hours > 0 then some opts.retention_hours else none)
        = some opts.retention_hours := if_pos hpos
    rw [hif, buildVacuumCmd_wrap_retention st opts.dry_run
      opts.enforce_retention_duration (opts.custom_metadata.map Map.data)
      opts.retention_hours h1 h2] at hsent
    exact ⟨_, hsent, rfl⟩

/-- C3 witness: retention 0 yields no retention period, retention 2 yields
exactly 2 hours (7200 seconds), the panic-band value 2 ^ 63 passes nothing
to the builder, and the wrapped value 2 ^ 64 - 1 passes minus one hour, at
concrete calls. -/
theorem c3_vacuum_retention_witness :
    (∃ cmd, (table_vacuum (fun _ _ => .storage) (fun _ => .ok (some 0, []))
        ⟨some 1⟩ ⟨false, 0, true, none⟩).cmdSent = some cmd
      ∧ cmd.retention_period_secs = none)
    ∧ (∃ cmd, (table_vacuum (fun _ _ => .storage) (fun _ => .ok (some 0, []))
        ⟨some 1⟩ ⟨false, 2, true, none⟩).cmdSent = some cmd
      ∧ cmd.retention_period_secs = some (((2 : Nat) : Int) * 3600))
    ∧ ((table_vacuum (fun _ _ => .storage) (fun _ => .ok (some 0, []))
        ⟨some 1⟩ ⟨false, 2 ^ 63, true, none⟩).cmdSent = none)
    ∧ (∃ cmd, (table_vacuum (fun _ _ => .storage) (fun _ => .ok (some 0, []))
        ⟨some 1⟩ ⟨false, 2 ^ 64 - 1, true, none⟩).cmdSent = some cmd
      ∧ cmd.retention_period_secs
          = some ((((2 ^ 64 - 1 : Nat) : Int) - 2 ^ 64) * 3600)) :=
  ⟨(c3_vacuum_retention (fun _ _ => .storage) (fun _ => .ok (some 0, []))
      ⟨some 1⟩ ⟨false, 0, true, none⟩ 1 rfl).1 rfl,
   (c3_vacuum_retention (fun _ _ => .storage) (fun _ => .ok (some 0, []))
      ⟨some 1⟩ ⟨false, 2, true, none⟩ 1 rfl).2.1 (by decide) (by decide),
   (c3_vacuum_retention (fun _ _ => .storage) (fun _ => .ok (some 0, []))
      ⟨some 1⟩ ⟨false, 2 ^ 63, true, none⟩ 1 rfl).2.2.1 (by decide) (by decide),
   (c3_vacuum_retention (fun _ _ => .storage) (fun _ => .ok (some 0, []))
      ⟨some 1⟩ ⟨false, 2 ^ 64 - 1, true, none⟩ 1 rfl).2.2.2 (by decide) (by decide)⟩

/-- C4: when the engine vacuum execution succeeds, the handle state is
replaced by the post-vacuum state returned by the engine, and the callback
receives a dynamic array holding exactly the deleted file names, in order,
as their UTF-8 bytes. -/
theorem c4_vacuum_success (fromNative : Nat → String → DeltaTableErrorCode)
    (eng : VacuumEngine) (t : DeltaTable) (opts : VacuumOptions) (cmd : VacuumCmd)
    (newState : Option TableState) (files : List String)
    (hcmd : (table_vacuum fromNative eng t opts).cmdSent = some cmd)
    (heng : eng cmd = .ok (newState, files)) :
    (table_vacuum fromNative eng t opts).finalTable.state = newState
    ∧ (table_vacuum fromNative eng t opts).trace.allInvocations
        = [(some (DynamicArray.from_vec_string files), none)]
    ∧ (DynamicArray.from_vec_string files).data = files.map ByteArray.from_utf8 := by
  have hsent := table_vacuum_cmdSent fromNative eng t opts
  rw [hcmd] at hsent
  cases ht : t.state with
  | none => simp only [ht] at hsent; cases hsent
  | some st =>
      simp only [ht] at hsent
      have hEq := table_vacuum_eq_of_cmd fromNative eng t opts st cmd ht hsent.symm
      rw [heng] at hEq
      rw [hEq]
      exact ⟨rfl, rfl, rfl⟩

/-- C4 witness: a concrete successful vacuum replaces the state and returns
the deleted names. -/
theorem c4_vacuum_success_witness :
    (table_vacuum (fun _ _ => .storage) (fun _ => .ok (some 9, ["p1", "p2"]))
        ⟨some 5⟩ ⟨true, 2, true, none⟩).finalTable.state = some 9
    ∧ (table_vacuum (fun _ _ => .storage) (fun _ => .ok (some 9, ["p1", "p2"]))
        ⟨some 5⟩ ⟨true, 2, true, none⟩).trace.allInvocations
        = [(some (DynamicArray.from_vec_string ["p1", "p2"]), none)]
    ∧ (DynamicArray.from_vec_string ["p1", "p2"]).data
        = ["p1", "p2"].map ByteArray.from_utf8 :=
  c4_vacuum_success (fun _ _ => .storage) (fun _ => .ok (some 9, ["p1", "p2"]))
    ⟨some 5⟩ ⟨true, 2, true, none⟩ ⟨5, true, true, some 7200, none⟩ (some 9) ["p1", "p2"]
    (by decide) rfl

theorem zip_get_mem {α β : Type} :
    ∀ (ks : List α) (vs : List β) (i : Nat) (hi : i < ks.length) (hv : i < vs.length),
      (ks.get ⟨i, hi⟩, vs.get ⟨i, hv⟩) ∈ ks.zip vs
  | _ :: _, _ :: _, 0, _, _ => List.mem_cons_self _ _
  | _ :: ks, _ :: vs, i + 1, hi, hv =>
      List.mem_cons_of_mem _ (zip_get_mem ks vs i (by simpa using hi) (by simpa using hv))
  | [], _, _, hi, _ => absurd hi (by simp)
  | _ :: _, [], _, _, hv => absurd hv (by simp)

/-- C7: a map built by map_new and repeated map_add with pairwise distinct
keys, inserted in any order, is observed by the operation consuming it
(table_vacuum through custom_metadata and the serde_json conversion) as
exactly the key-to-value set of those pairs: every inserted key maps to its
value and no other key is present. -/
theorem c7_map_round_trip (pairs pairs2 : List (String × String)) (cap : Nat)
    (hperm : pairs.Perm pairs2) (hnd : (pairs.map Prod.fst).Nodup)
    (fromNative : Nat → String → DeltaTableErrorCode) (eng : VacuumEngine)
    (t : DeltaTable) (opts : VacuumOptions) (m : Map) (cmd : VacuumCmd)
    (hbuild : mapAddAll pairs2 (some (map_new cap)) = some m)
    (hopts : opts.custom_metadata = some m)
    (hcmd : (table_vacuum fromNative eng t opts).cmdSent = some cmd) :
    ∃ md, cmd.metadata = some md
      ∧ (∀ kv ∈ pairs, assocLookup md kv.1 = some kv.2)
      ∧ (∀ k : String, k ∉ pairs.map Prod.fst → assocLookup md k = none) := by
  have hnd2 : (pairs2.map Prod.fst).Nodup := ((hperm.map Prod.fst).nodup_iff).mp hnd
  rw [mapAddAll_some pairs2 (map_new cap)] at hbuild
  have hfold : pairs2.foldl (fun d p => assocInsert d p.1 p.2) (map_new cap).data = pairs2 :=
    foldl_assocInsert_nil pairs2 hnd2
  rw [hfold] at hbuild
  have hm : (⟨pairs2⟩ : Map) = m := Option.some.inj hbuild
  have hsent := table_vacuum_cmdSent fromNative eng t opts
  rw [hcmd] at hsent
  cases ht : t.state with
  | none => simp only [ht] at hsent; cases hsent
  | some st =>
      simp only [ht] at hsent
      have hmd := buildVacuumCmd_metadata st opts.dry_run opts.enforce_retention_duration
        _ _ cmd hsent.symm
      rw [hopts, ← hm] at hmd
      have hjson : jsonMapOf pairs2 = pairs2 := foldl_assocInsert_nil pairs2 hnd2
      refine ⟨pairs2, ?_, ?_, ?_⟩
      · rw [hmd]
        simp [hjson]
      · intro kv hkv
        exact assocLookup_of_mem hnd2 (hperm.subset hkv)
      · intro k hk
        refine assocLookup_of_not_mem ?_
        exact fun hmem => hk (((hperm.map Prod.fst).mem_iff).mpr hmem)

/-- C7 witness: two pairs inserted in swapped order are observed by a
concrete vacuum call as exactly the original key-to-value set. -/
theorem c7_map_round_trip_witness :
    ∃ md, (⟨3, true, false, none,
        some [("b", "2"), ("a", "1")]⟩ : VacuumCmd).metadata = some md
      ∧ (∀ kv ∈ [("a", "1"), ("b", "2")], assocLookup md kv.1 = some kv.2)
      ∧ (∀ k : String,
          k ∉ [("a", "1"), ("b", "2")].map Prod.fst → assocLookup md k = none) :=
  c7_map_round_trip [("a", "1"), ("b", "2")] [("b", "2"), ("a", "1")] 0
    (by decide) (by decide) (fun _ _ => .storage) (fun _ => .ok (some 0, []))
    ⟨some 3⟩ ⟨false, 0, true, some ⟨[("b", "2"), ("a", "1")]⟩⟩
    ⟨[("b", "2"), ("a", "1")]⟩ ⟨3, true, false, none, some [("b", "2"), ("a", "1")]⟩
    (by decide) rfl (by decide)

/-- C8: decoding a metadata text block of the form k1, v1, ..., kn, vn on
alternating lines, where no key or value embeds a newline and the keys are
pairwise distinct, yields exactly the map sending each ki to vi: each ki
looks up to vi and every other key is absent. -/
theorem c8_metadata_block_decode (ks vs : List (List Char))
    (hlen : ks.length = vs.length)
    (hks : ∀ p ∈ ks, '\n' ∉ p) (hvs : ∀ p ∈ vs, '\n' ∉ p)
    (hnd : ks.Nodup) :
    (∀ i (hi : i < ks.length) (hv : i < vs.length),
        assocLookup (to_string_map_on_newlines (newlineBlock (interleave ks vs)))
            (String.mk (ks.get ⟨i, hi⟩))
          = some (String.mk (vs.get ⟨i, hv⟩)))
    ∧ (∀ k : String, k ∉ ks.map String.mk →
        assocLookup (to_string_map_on_newlines (newlineBlock (interleave ks vs))) k
          = none) := by
  have hinj : Function.Injective String.mk := fun _ _ h => congrArg String.data h
  have hkeys : ((ks.zip vs).map (fun p => (String.mk p.1, String.mk p.2))).map Prod.fst
      = ks.map String.mk := by
    rw [List.map_map]
    have hcomp : (Prod.fst ∘ fun p : List Char × List Char => (String.mk p.1, String.mk p.2))
        = String.mk ∘ Prod.fst := rfl
    rw [hcomp, ← List.map_map, List.map_fst_zip ks vs (le_of_eq hlen)]
  have hndp :
      (((ks.zip vs).map (fun p => (String.mk p.1, String.mk p.2))).map Prod.fst).Nodup := by
    rw [hkeys]
    exact hnd.map hinj
  have hdec : to_string_map_on_newlines (newlineBlock (interleave ks vs))
      = (ks.zip vs).map (fun p => (String.mk p.1, String.mk p.2)) := by
    cases ks with
    | nil =>
        have hvs0 : vs = [] := by simpa using hlen.symm
        subst hvs0
        rfl
    | cons k ks2 =>
        cases vs with
        | nil => simp at hlen
        | cons v vs2 =>
            have hne : interleave (k :: ks2) (v :: vs2) ≠ [] := by
              show k :: v :: interleave ks2 vs2 ≠ []
              simp
            have hnonl : ∀ p ∈ interleave (k :: ks2) (v :: vs2), '\n' ∉ p := by
              intro p hp
              rcases mem_interleave _ _ p hp with hcase | hcase
              · exact hks p hcase
              · exact hvs p hcase
            unfold to_string_map_on_newlines
            rw [splitNl_newlineBlock _ hne hnonl, chunkPairs_interleave _ _ hlen]
            exact foldl_assocInsert_nil _ hndp
  constructor
  · intro i hi hv
    rw [hdec]
    exact assocLookup_of_mem hndp
      (List.mem_map.mpr ⟨(ks.get ⟨i, hi⟩, vs.get ⟨i, hv⟩), zip_get_mem ks vs i hi hv, rfl⟩)
  · intro k hk
    rw [hdec]
    refine assocLookup_of_not_mem ?_
    rw [hkeys]
    exact hk

/-- C8 witness: the concrete two-entry block decodes to exactly its two
bindings. -/
theorem c8_metadata_block_decode_witness :
    (∀ i (hi : i < [['a'], ['b']].length) (hv : i < [['1'], ['2']].length),
        assocLookup
            (to_string_map_on_newlines (newlineBlock (interleave [['a'], ['b']] [['1'], ['2']])))
            (String.mk ([['a'], ['b']].get ⟨i, hi⟩))
          = some (String.mk ([['1'], ['2']].get ⟨i, hv⟩)))
    ∧ (∀ k : String, k ∉ [['a'], ['b']].map String.mk →
        assocLookup
            (to_string_map_on_newlines (newlineBlock (interleave [['a'], ['b']] [['1'], ['2']])))
            k
          = none) :=
  c8_metadata_block_decode [['a'], ['b']] [['1'], ['2']] rfl (by decide) (by decide) (by decide)

end Bridge
